import Mathlib

/-!
Verification of the cbin chess-archive encoder.

This file shallowly embeds the encoding half of the repository:

* `src/serializer.rs` — `Serializer` (block builder + accumulation):
  `add_move`, `add_game`, `reset`, `finish_current_block`;
* `src/converter.rs` — `ConverterVisitor::san`, `Converter::next_game`,
  `flush`, `game_count`, and the `Drop` impl;
* `src/utils.rs` — the enum conversion helpers.

The flatbuffer code generated by `planus` from `schema/chess.fbs` is not part
of the sources; its arena/offset behaviour is modelled from the spec (growable
byte buffer, position-based handles, concrete byte layout an implementation
detail).  Machine integers are `Nat` with explicit `% 2 ^ 32` where the Rust
code truncates to `u32`.  The fallible `std::io::Write` sink is modelled by an
explicit failure plan so that error paths are first-class.
-/

set_option linter.unusedVariables false

/-- Schema enum `Piece` (src/utils.rs, schema). -/
inductive Piece
  | King | Queen | Rook | Bishop | Knight | Pawn
deriving DecidableEq, Repr

/-- Schema enum `CastleKind`. -/
inductive CastleKind
  | Kingside | Queenside
deriving DecidableEq, Repr

/-- Schema enum `GameResult`. -/
inductive GameResult
  | WhiteWin | BlackWin | Draw | Unknown
deriving DecidableEq, Repr

/-- Schema enum `File` (board file A..H). -/
inductive File
  | A | B | C | D | E | F | G | H
deriving DecidableEq, Repr

/-- Schema enum `Rank` (board rank 1..8). -/
inductive Rank
  | First | Second | Third | Fourth | Fifth | Sixth | Seventh | Eighth
deriving DecidableEq, Repr

/-- Schema enum `Square`: 64 values A1..H8.  The source lists all 64
constructors; we index them as `Fin 64` (file-major, as in the source's
A1, B1, ..., H8 order). -/
abbrev Square := Fin 64

/-- Upstream `shakmaty::Role` (external collaborator). -/
inductive Role
  | King | Queen | Rook | Bishop | Knight | Pawn
deriving DecidableEq, Repr

/-- Upstream `shakmaty::File`. -/
inductive SFile
  | A | B | C | D | E | F | G | H
deriving DecidableEq, Repr

/-- Upstream `shakmaty::Rank`. -/
inductive SRank
  | First | Second | Third | Fourth | Fifth | Sixth | Seventh | Eighth
deriving DecidableEq, Repr

/-- Upstream `shakmaty::Square`, mirrored by the same `Fin 64` indexing; the
source's `square_match!` macro maps each constructor to its namesake. -/
abbrev SSquare := Fin 64

/-- Upstream `shakmaty::CastlingSide`. -/
inductive CastlingSide
  | KingSide | QueenSide
deriving DecidableEq, Repr

/-- Upstream `shakmaty::KnownOutcome`. -/
inductive KnownOutcome
  | DecisiveWhite | DecisiveBlack | Draw
deriving DecidableEq, Repr

/-- Upstream `shakmaty::Outcome`. -/
inductive Outcome
  | Known (k : KnownOutcome) | Unknown
deriving DecidableEq, Repr

/-- `utils::role_to_piece`. -/
def role_to_piece : Role → Piece
  | .King => .King
  | .Queen => .Queen
  | .Rook => .Rook
  | .Bishop => .Bishop
  | .Knight => .Knight
  | .Pawn => .Pawn

/-- `utils::shakmaty_square_to_square`: the source's `square_match!` maps each
of the 64 constructors to its namesake, i.e. the identity on the index. -/
def shakmaty_square_to_square (s : SSquare) : Square := s

/-- `utils::shakmaty_file_to_file`. -/
def shakmaty_file_to_file : SFile → File
  | .A => .A
  | .B => .B
  | .C => .C
  | .D => .D
  | .E => .E
  | .F => .F
  | .G => .G
  | .H => .H

/-- `utils::shakmaty_rank_to_rank`. -/
def shakmaty_rank_to_rank : SRank → Rank
  | .First => .First
  | .Second => .Second
  | .Third => .Third
  | .Fourth => .Fourth
  | .Fifth => .Fifth
  | .Sixth => .Sixth
  | .Seventh => .Seventh
  | .Eighth => .Eighth

/-- `utils::outcome_to_game_result`. -/
def outcome_to_game_result : Outcome → GameResult
  | .Known .DecisiveWhite => .WhiteWin
  | .Known .DecisiveBlack => .BlackWin
  | .Known .Draw => .Draw
  | .Unknown => .Unknown

/-- Schema table `Move`, with the fields the library's converter populates
(`src/converter.rs`): moved piece, destination, capture flag, optional
promotion, optional castle, optional from-file/from-rank disambiguation. -/
structure Move where
  moved_piece : Piece
  «to» : Square
  is_capture : Bool
  promoted_piece : Option Piece
  castle : Option CastleKind
  from_file : Option File
  from_rank : Option Rank
deriving DecidableEq, Repr

/-- Schema table `Game` as the converter builds it: result, optional start
position (FEN bytes), and the ordered list of move offsets. -/
structure GameValue where
  result : GameResult
  start_position : Option (List Nat)
  moves : List Nat
deriving DecidableEq, Repr

/-- Little-endian bytes of `n` truncated to `u32` (the Rust
`(x as u32).to_le_bytes()`). -/
def toLE4 (n : Nat) : List Nat :=
  [n % 256, n / 256 % 256, n / 65536 % 256, n / 16777216 % 256]

/-- Reads a `u32` back from its 4 little-endian bytes. -/
def fromLE4 : List Nat → Nat
  | [a, b, c, d] => a + 256 * b + 65536 * c + 16777216 * d
  | _ => 0

theorem toLE4_length (n : Nat) : (toLE4 n).length = 4 := rfl

theorem fromLE4_toLE4 (n : Nat) (h : n < 2 ^ 32) : fromLE4 (toLE4 n) = n := by
  simp only [toLE4, fromLE4]
  omega

/-- Modelled from the spec: the `planus::Builder` arena — "a builder that
appends to one growable byte buffer and returns position-based handles
(arena + index pattern)".  The generated serialization code from
`schema/chess.fbs` is not in the sources. -/
structure Builder where
  data : List Nat
deriving DecidableEq, Repr

/-- `planus::Builder::clear`: empties the arena. -/
def Builder.clear (_b : Builder) : Builder := ⟨[]⟩

/-- Modelled from the spec: the concrete byte record of a `Move` entity
("exact byte layout is an implementation detail"); one byte per field,
options tagged. -/
def pieceByte : Piece → Nat
  | .King => 0 | .Queen => 1 | .Rook => 2 | .Bishop => 3 | .Knight => 4 | .Pawn => 5

def fileByte : File → Nat
  | .A => 0 | .B => 1 | .C => 2 | .D => 3 | .E => 4 | .F => 5 | .G => 6 | .H => 7

def rankByte : Rank → Nat
  | .First => 0 | .Second => 1 | .Third => 2 | .Fourth => 3
  | .Fifth => 4 | .Sixth => 5 | .Seventh => 6 | .Eighth => 7

def encodeMove (m : Move) : List Nat :=
  [pieceByte m.moved_piece,
   m.to.val,
   (if m.is_capture then 1 else 0),
   (match m.promoted_piece with
    | none => 0
    | some p => 1 + pieceByte p),
   (match m.castle with
    | none => 0 | some CastleKind.Kingside => 1 | some CastleKind.Queenside => 2),
   (match m.from_file with
    | none => 0
    | some f => 1 + fileByte f),
   (match m.from_rank with
    | none => 0
    | some r => 1 + rankByte r)]

/-- Modelled from the spec: the byte record of a `Game` entity — result byte,
tagged optional start position, move-offset vector with its length. -/
def resultByte : GameResult → Nat
  | .WhiteWin => 0 | .BlackWin => 1 | .Draw => 2 | .Unknown => 3

def encodeGame (g : GameValue) : List Nat :=
  resultByte g.result ::
  ((match g.start_position with
    | none => [0]
    | some f => 1 :: (toLE4 f.length ++ f)) ++
   toLE4 g.moves.length ++ g.moves.flatMap toLE4)

/-- `Move::prepare` — serializes the move into the arena and returns its
position-based handle (the `planus::Offset`). -/
def Move.prepare (m : Move) (b : Builder) : Nat × Builder :=
  (b.data.length, ⟨b.data ++ encodeMove m⟩)

/-- `Game::prepare` — serializes the game record into the arena and returns
its position-based handle. -/
def GameValue.prepare (g : GameValue) (b : Builder) : Nat × Builder :=
  (b.data.length, ⟨b.data ++ encodeGame g⟩)

/-- Modelled from the spec: the `Archive` record — the game-offset vector
followed by its length. -/
def archiveRecord (games : List Nat) : List Nat :=
  games.flatMap toLE4 ++ toLE4 games.length

/-- Modelled from the spec: the finished block payload produced by
`builder.finish(block, None)` — the arena (all moves and games serialized so
far), then the `Archive` record, then the `ArchiveType`, `Block` and root
offsets.  Self-contained and offset-addressed; the game count sits 16 bytes
from the end. -/
def blockPayload (data : List Nat) (games : List Nat) : List Nat :=
  data ++ archiveRecord games ++
    toLE4 data.length ++
    toLE4 (data.length + (archiveRecord games).length) ++
    toLE4 (data.length + (archiveRecord games).length + 4)

/-- Decodes the game count of a block payload: the `u32` sitting 16 bytes
from the end of the payload (see `blockPayload`). -/
def gamesInPayload (p : List Nat) : Nat :=
  fromLE4 ((p.drop (p.length - 16)).take 4)

/-- The output sink: the `std::io::Write` the serializer owns.  `chunks` is
the list of successful `write_all` buffers; `plan` schedules I/O failures
(`true` = the next `write_all` call fails), empty plan = all writes succeed,
so every failure behaviour of an abstract writer is expressible. -/
structure Sink where
  chunks : List (List Nat)
  plan : List Bool
deriving DecidableEq, Repr

/-- `Write::write_all` on the modelled sink: fails when the plan says so,
otherwise appends the buffer as one chunk. -/
def Sink.write_all (s : Sink) (bytes : List Nat) : Bool × Sink :=
  match s.plan with
  | [] => (true, ⟨s.chunks ++ [bytes], []⟩)
  | f :: rest =>
      if f then (false, ⟨s.chunks, rest⟩) else (true, ⟨s.chunks ++ [bytes], rest⟩)

/-- `serializer.rs`: `const MAX_GAMES_PER_BLOCK: usize = 500_000`. -/
def MAX_GAMES_PER_BLOCK : Nat := 500000

/-- `Serializer<T: Write>` (src/serializer.rs): the sink, the builder arena,
the per-block dedup table (`HashMap<Move, Offset<Move>>` as an association
list), the accumulated game offsets, and the block threshold. -/
structure Serializer where
  sink : Sink
  builder : Builder
  move_map : List (Move × Nat)
  games_list : List Nat
  max_games_per_block : Nat
deriving DecidableEq, Repr

/-- `HashMap::get` on the association-list model of the dedup table. -/
def mmLookup : List (Move × Nat) → Move → Option Nat
  | [], _ => none
  | (k, v) :: rest, m => if k = m then some v else mmLookup rest m

/-- `Serializer::new`: empty builder, empty dedup table, empty game list,
threshold `MAX_GAMES_PER_BLOCK`. -/
def Serializer.new (sink : Sink) : Serializer :=
  { sink := sink, builder := ⟨[]⟩, move_map := [], games_list := [],
    max_games_per_block := MAX_GAMES_PER_BLOCK }

/-- `Serializer::set_max_games_per_block`. -/
def Serializer.set_max_games_per_block (s : Serializer) (n : Nat) : Serializer :=
  { s with max_games_per_block := n }

/-- `Serializer::add_move`: return the cached offset for an equal move, else
serialize it and cache the mapping. -/
def Serializer.add_move (s : Serializer) (m : Move) : Nat × Serializer :=
  match mmLookup s.move_map m with
  | some off => (off, s)
  | none =>
      let p := Move.prepare m s.builder
      (p.1, { s with builder := p.2, move_map := (m, p.1) :: s.move_map })

/-- `Serializer::reset`: clear dedup table, game list and arena. -/
def Serializer.reset (s : Serializer) : Serializer :=
  { s with move_map := [], games_list := [], builder := s.builder.clear }

/-- `Serializer::finish_current_block`: build the Archive/ArchiveType/Block
wrapping, write the 4-byte little-endian length then the payload; each
`write_all` uses `?`, so a failure returns early — before `reset` runs. -/
def Serializer.finish_current_block (s : Serializer) : Bool × Serializer :=
  match Sink.write_all s.sink
      (toLE4 (blockPayload s.builder.data s.games_list).length) with
  | (false, sink1) => (false, { s with sink := sink1 })
  | (true, sink1) =>
      match Sink.write_all sink1 (blockPayload s.builder.data s.games_list) with
      | (false, sink2) => (false, { s with sink := sink2 })
      | (true, sink2) => (true, Serializer.reset { s with sink := sink2 })

/-- `Serializer::add_game`: serialize the game, push its offset, and if the
accumulated count now meets or exceeds the threshold, finish the block
(propagating its I/O result). -/
def Serializer.add_game (s : Serializer) (g : GameValue) : Bool × Nat × Serializer :=
  let p := GameValue.prepare g s.builder
  let s1 : Serializer := { s with builder := p.2, games_list := s.games_list ++ [p.1] }
  if s1.games_list.length ≥ s1.max_games_per_block then
    let r := Serializer.finish_current_block s1
    (r.1, p.1, r.2)
  else
    (true, p.1, s1)

/-- Iterated `add_move` with the same move (state part only). -/
def addMoveN (m : Move) : Nat → Serializer → Serializer
  | 0, s => s
  | n + 1, s => addMoveN m n (Serializer.add_move s m).2

theorem mmLookup_after_add (s : Serializer) (m : Move) :
    mmLookup ((Serializer.add_move s m).2).move_map m
      = some ((Serializer.add_move s m).1) := by
  cases h : mmLookup s.move_map m with
  | some off => simp [Serializer.add_move, h]
  | none => simp [Serializer.add_move, h, mmLookup]

theorem add_move_pair_idem (s : Serializer) (m : Move) :
    Serializer.add_move ((Serializer.add_move s m).2) m = Serializer.add_move s m := by
  have hl := mmLookup_after_add s m
  conv_lhs => rw [Serializer.add_move]
  rw [hl]

/-- Claim C1: within one block, `Serializer::add_move` is idempotent and
deduplicating — a second (or any further) call with an equal `Move` returns
the same offset and leaves the whole serializer state (arena bytes, dedup
table, game list, sink) unchanged, so N occurrences of an identical move
yield exactly one physical entity. -/
theorem add_move_idempotent_dedup (s : Serializer) (m : Move) (n : Nat) :
    Serializer.add_move ((Serializer.add_move s m).2) m = Serializer.add_move s m ∧
    addMoveN m (n + 1) s = addMoveN m 1 s := by
  refine ⟨add_move_pair_idem s m, ?_⟩
  induction n generalizing s with
  | zero => rfl
  | succ k ih =>
      have h1 : addMoveN m (k + 2) s = addMoveN m (k + 1) (Serializer.add_move s m).2 := rfl
      have h2 : addMoveN m 1 (Serializer.add_move s m).2
          = (Serializer.add_move ((Serializer.add_move s m).2) m).2 := rfl
      have h3 : addMoveN m 1 s = (Serializer.add_move s m).2 := rfl
      rw [h1, ih, h2, add_move_pair_idem s m, h3]

/-- `finish_current_block` when every write succeeds (empty failure plan):
returns success, appends the length chunk and payload chunk, and resets. -/
theorem finish_plan_nil (s : Serializer) (hp : s.sink.plan = []) :
    Serializer.finish_current_block s
      = (true,
         { sink := ⟨s.sink.chunks
             ++ [toLE4 (blockPayload s.builder.data s.games_list).length,
                 blockPayload s.builder.data s.games_list], []⟩,
           builder := ⟨[]⟩, move_map := [], games_list := [],
           max_games_per_block := s.max_games_per_block }) := by
  obtain ⟨⟨chunks, plan⟩, b, mm, gl, mx⟩ := s
  simp only at hp
  subst hp
  simp [Serializer.finish_current_block, Sink.write_all, Serializer.reset, Builder.clear]

/-- `finish_current_block` when the length-prefix write fails: the error is
surfaced and `reset` is never reached. -/
theorem finish_plan_fail1 (s : Serializer) (rest : List Bool)
    (hp : s.sink.plan = true :: rest) :
    Serializer.finish_current_block s
      = (false, { s with sink := ⟨s.sink.chunks, rest⟩ }) := by
  obtain ⟨⟨chunks, plan⟩, b, mm, gl, mx⟩ := s
  simp only at hp
  subst hp
  simp [Serializer.finish_current_block, Sink.write_all]

/-- `finish_current_block` when the prefix write succeeds and the plan is then
exhausted: the payload write also succeeds. -/
theorem finish_plan_ok_nil (s : Serializer) (hp : s.sink.plan = [false]) :
    Serializer.finish_current_block s
      = (true,
         { sink := ⟨s.sink.chunks
             ++ [toLE4 (blockPayload s.builder.data s.games_list).length,
                 blockPayload s.builder.data s.games_list], []⟩,
           builder := ⟨[]⟩, move_map := [], games_list := [],
           max_games_per_block := s.max_games_per_block }) := by
  obtain ⟨⟨chunks, plan⟩, b, mm, gl, mx⟩ := s
  simp only at hp
  subst hp
  simp [Serializer.finish_current_block, Sink.write_all, Serializer.reset, Builder.clear]

/-- `finish_current_block` when the prefix write succeeds but the payload
write fails: the error is surfaced and `reset` is never reached. -/
theorem finish_plan_ok_fail (s : Serializer) (rest : List Bool)
    (hp : s.sink.plan = false :: true :: rest) :
    Serializer.finish_current_block s
      = (false, { s with sink := ⟨s.sink.chunks
          ++ [toLE4 (blockPayload s.builder.data s.games_list).length], rest⟩ }) := by
  obtain ⟨⟨chunks, plan⟩, b, mm, gl, mx⟩ := s
  simp only at hp
  subst hp
  simp [Serializer.finish_current_block, Sink.write_all]

/-- `finish_current_block` when both scheduled writes succeed. -/
theorem finish_plan_ok_ok (s : Serializer) (rest : List Bool)
    (hp : s.sink.plan = false :: false :: rest) :
    Serializer.finish_current_block s
      = (true,
         { sink := ⟨s.sink.chunks
             ++ [toLE4 (blockPayload s.builder.data s.games_list).length,
                 blockPayload s.builder.data s.games_list], rest⟩,
           builder := ⟨[]⟩, move_map := [], games_list := [],
           max_games_per_block := s.max_games_per_block }) := by
  obtain ⟨⟨chunks, plan⟩, b, mm, gl, mx⟩ := s
  simp only at hp
  subst hp
  simp [Serializer.finish_current_block, Sink.write_all, Serializer.reset, Builder.clear]

/-- On the success path, `finish_current_block` appends exactly the length
chunk and the payload chunk and clears all in-memory builder state. -/
theorem finish_true_parts (s : Serializer)
    (h : (Serializer.finish_current_block s).1 = true) :
    (Serializer.finish_current_block s).2.sink.chunks
      = s.sink.chunks ++ [toLE4 (blockPayload s.builder.data s.games_list).length,
                          blockPayload s.builder.data s.games_list] ∧
    (Serializer.finish_current_block s).2.move_map = [] ∧
    (Serializer.finish_current_block s).2.games_list = [] ∧
    (Serializer.finish_current_block s).2.builder.data = [] ∧
    (Serializer.finish_current_block s).2.max_games_per_block = s.max_games_per_block := by
  rcases hp : s.sink.plan with _ | ⟨f1, rest1⟩
  · rw [finish_plan_nil s hp]
    simp
  · cases f1
    · rcases hr : rest1 with _ | ⟨f2, rest2⟩
      · rw [finish_plan_ok_nil s (by rw [hp, hr])]
        simp
      · cases f2
        · rw [finish_plan_ok_ok s rest2 (by rw [hp, hr])]
          simp
        · rw [finish_plan_ok_fail s rest2 (by rw [hp, hr])] at h
          simp at h
    · rw [finish_plan_fail1 s rest1 hp] at h
      simp at h

/-- On the failure path, `finish_current_block` returns early before `reset`:
the dedup table, game list, arena and threshold are all left unchanged. -/
theorem finish_false_parts (s : Serializer)
    (h : (Serializer.finish_current_block s).1 = false) :
    (Serializer.finish_current_block s).2.move_map = s.move_map ∧
    (Serializer.finish_current_block s).2.games_list = s.games_list ∧
    (Serializer.finish_current_block s).2.builder = s.builder ∧
    (Serializer.finish_current_block s).2.max_games_per_block = s.max_games_per_block := by
  rcases hp : s.sink.plan with _ | ⟨f1, rest1⟩
  · rw [finish_plan_nil s hp] at h
    simp at h
  · cases f1
    · rcases hr : rest1 with _ | ⟨f2, rest2⟩
      · rw [finish_plan_ok_nil s (by rw [hp, hr])] at h
        simp at h
      · cases f2
        · rw [finish_plan_ok_ok s rest2 (by rw [hp, hr])] at h
          simp at h
        · rw [finish_plan_ok_fail s rest2 (by rw [hp, hr])]
          simp
    · rw [finish_plan_fail1 s rest1 hp]
      simp

/-- A concrete move used in counterexample states. -/
def mv0 : Move :=
  { moved_piece := Piece.Pawn, «to» := (28 : Fin 64), is_capture := false,
    promoted_piece := none, castle := none, from_file := none, from_rank := none }

/-- A serializer mid-block (non-empty dedup table, game list and arena) whose
sink fails the next `write_all` call. -/
def badSer : Serializer :=
  { sink := { chunks := [], plan := [true] }, builder := ⟨[7]⟩,
    move_map := [(mv0, 0)], games_list := [0], max_games_per_block := 500000 }

/-- Counterexample to claim C4 as stated: on an I/O failure while writing the
length prefix, `finish_current_block` surfaces the error but the in-memory
builder state is NOT cleared — the dedup table, game list and arena all keep
their contents (`reset` is only reached after both writes succeed). -/
theorem finish_error_not_cleared_cex :
    (Serializer.finish_current_block badSer).1 = false ∧
    (Serializer.finish_current_block badSer).2.games_list = [0] ∧
    (Serializer.finish_current_block badSer).2.move_map = [(mv0, 0)] ∧
    (Serializer.finish_current_block badSer).2.builder.data = [7] := by
  constructor
  · rfl
  · constructor
    · rfl
    · constructor <;> rfl

/-- Claim C4 (amended): if an I/O failure occurs while `finish_current_block`
writes the length prefix or the block bytes, the error is surfaced to the
caller and the in-memory builder state (dedup table, game list, arena) is
left unchanged — it is cleared only when both writes succeed. -/
theorem finish_error_surfaced_state_unchanged (s : Serializer)
    (h : (Serializer.finish_current_block s).1 = false) :
    (Serializer.finish_current_block s).2.move_map = s.move_map ∧
    (Serializer.finish_current_block s).2.games_list = s.games_list ∧
    (Serializer.finish_current_block s).2.builder = s.builder := by
  obtain ⟨h1, h2, h3, _⟩ := finish_false_parts s h
  exact ⟨h1, h2, h3⟩

theorem finish_error_surfaced_state_unchanged_witness :
    (Serializer.finish_current_block badSer).1 = false ∧
    (Serializer.finish_current_block badSer).2.move_map = badSer.move_map ∧
    (Serializer.finish_current_block badSer).2.games_list = badSer.games_list ∧
    (Serializer.finish_current_block badSer).2.builder = badSer.builder :=
  ⟨rfl, finish_error_surfaced_state_unchanged badSer rfl⟩

/-- Claim C5: for every block successfully written by `finish_current_block`,
the 4-byte chunk written before the payload chunk is exactly
`toLE4` of the payload's byte length, and (as the payload fits in `u32`)
decoding those 4 little-endian bytes gives back that exact length. -/
theorem length_prefix_integrity (s : Serializer)
    (h : (Serializer.finish_current_block s).1 = true)
    (h32 : (blockPayload s.builder.data s.games_list).length < 2 ^ 32) :
    (Serializer.finish_current_block s).2.sink.chunks
      = s.sink.chunks ++ [toLE4 (blockPayload s.builder.data s.games_list).length,
                          blockPayload s.builder.data s.games_list] ∧
    fromLE4 (toLE4 (blockPayload s.builder.data s.games_list).length)
      = (blockPayload s.builder.data s.games_list).length :=
  ⟨(finish_true_parts s h).1, fromLE4_toLE4 _ h32⟩

/-- A serializer mid-block whose sink accepts every write. -/
def okSer : Serializer :=
  { sink := { chunks := [], plan := [] }, builder := ⟨[7]⟩,
    move_map := [(mv0, 0)], games_list := [0], max_games_per_block := 500000 }

theorem length_prefix_integrity_witness :
    (Serializer.finish_current_block okSer).1 = true ∧
    (blockPayload okSer.builder.data okSer.games_list).length < 2 ^ 32 ∧
    ((Serializer.finish_current_block okSer).2.sink.chunks
       = okSer.sink.chunks
           ++ [toLE4 (blockPayload okSer.builder.data okSer.games_list).length,
               blockPayload okSer.builder.data okSer.games_list] ∧
     fromLE4 (toLE4 (blockPayload okSer.builder.data okSer.games_list).length)
       = (blockPayload okSer.builder.data okSer.games_list).length) :=
  ⟨rfl, by decide, length_prefix_integrity okSer rfl (by decide)⟩

/-- Claim C7: after a successful `finish_current_block` the dedup table, the
game list and the builder arena are all empty, every move misses the dedup
table, and adding any move in the next block serializes it afresh into the
(empty) arena — identical moves in two blocks yield two physical entities. -/
theorem reset_scopes_dedup_to_block (s : Serializer)
    (h : (Serializer.finish_current_block s).1 = true) :
    (Serializer.finish_current_block s).2.move_map = [] ∧
    (Serializer.finish_current_block s).2.games_list = [] ∧
    (Serializer.finish_current_block s).2.builder.data = [] ∧
    ∀ m : Move,
      mmLookup ((Serializer.finish_current_block s).2).move_map m = none ∧
      (Serializer.add_move (Serializer.finish_current_block s).2 m).2.builder.data
        = encodeMove m ∧
      (Serializer.add_move (Serializer.finish_current_block s).2 m).1 = 0 := by
  obtain ⟨hc, hm, hg, hb, hmax⟩ := finish_true_parts s h
  refine ⟨hm, hg, hb, fun m => ?_⟩
  have hlook : mmLookup ((Serializer.finish_current_block s).2).move_map m = none := by
    rw [hm]; rfl
  refine ⟨hlook, ?_, ?_⟩
  · simp [Serializer.add_move, hlook, Move.prepare, hb]
  · simp [Serializer.add_move, hlook, Move.prepare, hb]

theorem reset_scopes_dedup_to_block_witness :
    (Serializer.finish_current_block okSer).1 = true ∧
    ((Serializer.finish_current_block okSer).2.move_map = [] ∧
     (Serializer.finish_current_block okSer).2.games_list = [] ∧
     (Serializer.finish_current_block okSer).2.builder.data = [] ∧
     ∀ m : Move,
       mmLookup ((Serializer.finish_current_block okSer).2).move_map m = none ∧
       (Serializer.add_move (Serializer.finish_current_block okSer).2 m).2.builder.data
         = encodeMove m ∧
       (Serializer.add_move (Serializer.finish_current_block okSer).2 m).1 = 0) :=
  ⟨rfl, reset_scopes_dedup_to_block okSer rfl⟩

theorem encodeGame_length_pos (g : GameValue) : 0 < (encodeGame g).length := by
  simp [encodeGame]

/-- `add_game` below the threshold: push the offset, no flush. -/
theorem add_game_no_flush (s : Serializer) (g : GameValue)
    (h : s.games_list.length + 1 < s.max_games_per_block) :
    Serializer.add_game s g
      = (true, s.builder.data.length,
         { s with builder := ⟨s.builder.data ++ encodeGame g⟩,
                  games_list := s.games_list ++ [s.builder.data.length] }) := by
  have hcond : ¬ ((s.games_list ++ [s.builder.data.length]).length
      ≥ s.max_games_per_block) := by
    simp only [List.length_append, List.length_singleton]
    omega
  simp [Serializer.add_game, GameValue.prepare, hcond]
  intro hle
  exact absurd hle (by omega)

/-- `add_game` at or above the threshold: push the offset, then
`finish_current_block` runs on the pushed state. -/
theorem add_game_flush (s : Serializer) (g : GameValue)
    (h : s.games_list.length + 1 ≥ s.max_games_per_block) :
    Serializer.add_game s g
      = ((Serializer.finish_current_block
            { s with builder := ⟨s.builder.data ++ encodeGame g⟩,
                     games_list := s.games_list ++ [s.builder.data.length] }).1,
         s.builder.data.length,
         (Serializer.finish_current_block
            { s with builder := ⟨s.builder.data ++ encodeGame g⟩,
                     games_list := s.games_list ++ [s.builder.data.length] }).2) := by
  have hcond : (s.games_list ++ [s.builder.data.length]).length
      ≥ s.max_games_per_block := by
    simp only [List.length_append, List.length_singleton]
    omega
  simp [Serializer.add_game, GameValue.prepare, hcond]
  intro hlt
  exact absurd hlt (by omega)

/-- The payload chunks of the sink's chunk list: every second chunk (each
block is written as a length chunk followed by a payload chunk). -/
def payloadChunks : List (List Nat) → List (List Nat)
  | _ :: b :: rest => b :: payloadChunks rest
  | _ => []

theorem payloadChunks_append_pair (p d : List Nat) :
    ∀ C : List (List Nat), C.length % 2 = 0 →
      payloadChunks (C ++ [p, d]) = payloadChunks C ++ [d]
  | [], _ => rfl
  | [x], h => by simp at h
  | a :: b :: rest, h => by
      have hr : rest.length % 2 = 0 := by
        simp only [List.length_cons] at h
        omega
      simp only [List.cons_append, payloadChunks, List.append_eq]
      rw [payloadChunks_append_pair p d rest hr]

theorem gamesInPayload_append (pre x y z w : List Nat)
    (hx : x.length = 4) (hy : y.length = 4) (hz : z.length = 4) (hw : w.length = 4) :
    gamesInPayload (pre ++ (x ++ (y ++ (z ++ w)))) = fromLE4 x := by
  have hlen : (pre ++ (x ++ (y ++ (z ++ w)))).length = pre.length + 16 := by
    simp [hx, hy, hz, hw]
  rw [gamesInPayload, hlen]
  have h16 : pre.length + 16 - 16 = pre.length := by omega
  rw [h16, List.drop_left, ← hx, List.take_left]

/-- Decoding the game count back out of a block payload. -/
theorem gamesInPayload_blockPayload (d games : List Nat)
    (h : games.length < 2 ^ 32) :
    gamesInPayload (blockPayload d games) = games.length := by
  have hform : blockPayload d games
      = (d ++ games.flatMap toLE4)
        ++ (toLE4 games.length ++ (toLE4 d.length
            ++ (toLE4 (d.length + (archiveRecord games).length)
                ++ toLE4 (d.length + (archiveRecord games).length + 4)))) := by
    simp [blockPayload, archiveRecord, List.append_assoc]
  rw [hform,
      gamesInPayload_append _ _ _ _ _ (toLE4_length _) (toLE4_length _)
        (toLE4_length _) (toLE4_length _),
      fromLE4_toLE4 _ h]

/-- The driver loop: `add_game` over a list of games, stopping (with the
error surfaced) as soon as an `add_game` fails. -/
def runAddGames (s : Serializer) : List GameValue → Bool × Serializer
  | [] => (true, s)
  | g :: gs =>
      let r := Serializer.add_game s g
      if r.1 then runAddGames r.2.2 gs else (false, r.2.2)

/-- Invariant of the driver loop on an all-writes-succeed sink: every
`add_game` succeeds, the game-list length counts modulo the threshold, each
auto-flush appends one length-prefixed block holding exactly the threshold
many games. -/
theorem runAddGames_spec : ∀ (gs : List GameValue) (s : Serializer),
    s.sink.plan = [] →
    s.max_games_per_block < 2 ^ 32 →
    s.games_list.length < s.max_games_per_block →
    s.sink.chunks.length % 2 = 0 →
    (runAddGames s gs).1 = true ∧
    (runAddGames s gs).2.sink.plan = [] ∧
    (runAddGames s gs).2.max_games_per_block = s.max_games_per_block ∧
    (runAddGames s gs).2.games_list.length
      = (s.games_list.length + gs.length) % s.max_games_per_block ∧
    (runAddGames s gs).2.sink.chunks.length
      = s.sink.chunks.length
        + 2 * ((s.games_list.length + gs.length) / s.max_games_per_block) ∧
    (payloadChunks (runAddGames s gs).2.sink.chunks).map gamesInPayload
      = (payloadChunks s.sink.chunks).map gamesInPayload
        ++ List.replicate ((s.games_list.length + gs.length) / s.max_games_per_block)
             s.max_games_per_block
  | [], s => by
      intro hp h32 hm he
      refine ⟨rfl, hp, rfl, ?_, ?_, ?_⟩
      · simp [runAddGames, Nat.mod_eq_of_lt hm]
      · simp [runAddGames, Nat.div_eq_of_lt hm]
      · simp [runAddGames, Nat.div_eq_of_lt hm]
  | g :: gs, s => by
      intro hp h32 hm he
      by_cases hc : s.games_list.length + 1 < s.max_games_per_block
      · -- no flush on this add
        have hadd := add_game_no_flush s g hc
        have hstep : runAddGames s (g :: gs)
            = runAddGames
                { s with builder := ⟨s.builder.data ++ encodeGame g⟩,
                         games_list := s.games_list ++ [s.builder.data.length] } gs := by
          simp [runAddGames, hadd]
        set s1 : Serializer :=
          { s with builder := ⟨s.builder.data ++ encodeGame g⟩,
                   games_list := s.games_list ++ [s.builder.data.length] } with hs1
        have h1p : s1.sink.plan = [] := hp
        have h1max : s1.max_games_per_block = s.max_games_per_block := rfl
        have h1m : s1.games_list.length < s1.max_games_per_block := by
          simp [hs1]
          omega
        have h1e : s1.sink.chunks.length % 2 = 0 := he
        obtain ⟨i1, i2, i3, i4, i5, i6⟩ := runAddGames_spec gs s1 h1p h32 h1m h1e
        have hlen1 : s1.games_list.length = s.games_list.length + 1 := by
          simp [hs1]
        rw [hstep]
        refine ⟨i1, i2, i3, ?_, ?_, ?_⟩
        · rw [i4, hlen1, h1max]
          have : s.games_list.length + 1 + gs.length
              = s.games_list.length + (gs.length + 1) := by omega
          rw [this]
          rfl
        · rw [i5, hlen1, h1max]
          have : s.games_list.length + 1 + gs.length
              = s.games_list.length + (gs.length + 1) := by omega
          rw [this]
          rfl
        · rw [i6, hlen1, h1max]
          have : s.games_list.length + 1 + gs.length
              = s.games_list.length + (gs.length + 1) := by omega
          rw [this]
          rfl
      · -- this add reaches the threshold exactly and flushes
        have hge : s.games_list.length + 1 ≥ s.max_games_per_block := by omega
        have heq : s.games_list.length + 1 = s.max_games_per_block := by omega
        have hadd := add_game_flush s g hge
        set s1 : Serializer :=
          { s with builder := ⟨s.builder.data ++ encodeGame g⟩,
                   games_list := s.games_list ++ [s.builder.data.length] } with hs1
        have h1p : s1.sink.plan = [] := hp
        have hfin := finish_plan_nil s1 h1p
        have hlen1 : s1.games_list.length = s.games_list.length + 1 := by
          simp [hs1]
        have hstep : runAddGames s (g :: gs)
            = runAddGames (Serializer.finish_current_block s1).2 gs := by
          simp [runAddGames, hadd, hfin]
        set s2 : Serializer := (Serializer.finish_current_block s1).2 with hs2
        have h2parts : s2.sink.plan = [] ∧ s2.max_games_per_block = s.max_games_per_block
            ∧ s2.games_list.length = 0
            ∧ s2.sink.chunks
              = s.sink.chunks ++ [toLE4 (blockPayload s1.builder.data s1.games_list).length,
                                  blockPayload s1.builder.data s1.games_list] := by
          rw [hs2, hfin]
          exact ⟨rfl, rfl, rfl, rfl⟩
        obtain ⟨h2p, h2max, h2m, h2c⟩ := h2parts
        have h2mlt : s2.games_list.length < s2.max_games_per_block := by
          rw [h2m, h2max]
          omega
        have h2e : s2.sink.chunks.length % 2 = 0 := by
          rw [h2c]
          simp [List.length_append]
          omega
        have h2m32 : s2.max_games_per_block < 2 ^ 32 := by rw [h2max]; exact h32
        obtain ⟨i1, i2, i3, i4, i5, i6⟩ := runAddGames_spec gs s2 h2p h2m32 h2mlt h2e
        rw [hstep]
        have hcount : gamesInPayload (blockPayload s1.builder.data s1.games_list)
            = s.max_games_per_block := by
          rw [gamesInPayload_blockPayload]
          · rw [hlen1, heq]
          · rw [hlen1, heq]
            exact h32
        have harith : s.games_list.length + (g :: gs).length
            = s.max_games_per_block + gs.length := by
          simp [List.length_cons]
          omega
        rw [h2m, h2max] at i4 i5 i6
        simp only [Nat.zero_add] at i4 i5 i6
        have hdiv : (s.max_games_per_block + gs.length) / s.max_games_per_block
            = gs.length / s.max_games_per_block + 1 := by
          rw [Nat.add_comm, Nat.add_div_right _ (by omega : 0 < s.max_games_per_block)]
        have hmod : (s.max_games_per_block + gs.length) % s.max_games_per_block
            = gs.length % s.max_games_per_block := by
          rw [Nat.add_comm, Nat.add_mod_right]
        refine ⟨i1, i2, ?_, ?_, ?_, ?_⟩
        · rw [i3, h2max]
        · rw [i4, harith, hmod]
        · rw [i5, h2c, harith, hdiv]
          simp only [List.length_append, List.length_cons, List.length_nil]
          omega
        · rw [i6, h2c, harith, hdiv]
          rw [payloadChunks_append_pair _ _ _ he]
          simp only [List.map_append, List.map_cons, List.map_nil, hcount]
          rw [List.replicate_succ]
          simp [List.append_assoc]

/-- The encode driver: add all games through `add_game`, then one final
explicit `finish_current_block` (the trailing flush). -/
def runThenFlush (t : Nat) (gs : List GameValue) : Bool × Bool × Serializer :=
  let r := runAddGames ((Serializer.new ⟨[], []⟩).set_max_games_per_block t) gs
  let f := Serializer.finish_current_block r.2
  (r.1, f.1, f.2)

/-- Claim C2: `add_game` finalizes and flushes the block exactly when the
accumulated game count meets or exceeds the configured threshold (default
500,000); encoding `k * t + r` games (`0 < r < t`) followed by a final flush
yields `k + 1` length-prefixed blocks, the first `k` holding exactly `t`
games each and the last holding `r`. -/
theorem add_game_threshold_chunking :
    (Serializer.new ⟨[], []⟩).max_games_per_block = 500000 ∧
    (∀ (s : Serializer) (g : GameValue), s.sink.plan = [] →
      ((Serializer.add_game s g).2.2.sink.chunks ≠ s.sink.chunks
        ↔ s.games_list.length + 1 ≥ s.max_games_per_block)) ∧
    (∀ (t k r : Nat) (gs : List GameValue),
      0 < r → r < t → t < 2 ^ 32 → gs.length = k * t + r →
      (runThenFlush t gs).1 = true ∧
      (runThenFlush t gs).2.1 = true ∧
      (runThenFlush t gs).2.2.sink.chunks.length = 2 * (k + 1) ∧
      (payloadChunks (runThenFlush t gs).2.2.sink.chunks).map gamesInPayload
        = List.replicate k t ++ [r]) := by
  refine ⟨rfl, ?_, ?_⟩
  · intro s g hp
    by_cases hc : s.games_list.length + 1 ≥ s.max_games_per_block
    · rw [add_game_flush s g hc]
      rw [finish_plan_nil _ (show (({ s with
            builder := ⟨s.builder.data ++ encodeGame g⟩,
            games_list := s.games_list ++ [s.builder.data.length] } : Serializer)).sink.plan
          = [] from hp)]
      refine iff_of_true ?_ hc
      intro heq
      have hlen := congrArg List.length heq
      simp at hlen
    · rw [add_game_no_flush s g (by omega)]
      simp only [ne_eq]
      constructor
      · intro hne
        exact absurd True.intro hne
      · intro hge
        exact absurd hge (by omega)
  · intro t k r gs hr hrt h32 hlen
    have h0t : 0 < t := by omega
    obtain ⟨i1, i2, i3, i4, i5, i6⟩ :=
      runAddGames_spec gs ((Serializer.new ⟨[], []⟩).set_max_games_per_block t)
        rfl h32 h0t rfl
    have hmax : ((Serializer.new ⟨[], []⟩).set_max_games_per_block t).max_games_per_block
        = t := rfl
    have hz : ((Serializer.new ⟨[], []⟩).set_max_games_per_block t).games_list.length
        = 0 := rfl
    have hc0 : ((Serializer.new ⟨[], []⟩).set_max_games_per_block t).sink.chunks
        = [] := rfl
    have hpc0 : payloadChunks ([] : List (List Nat)) = [] := rfl
    rw [hmax] at i3
    rw [hmax, hz] at i4
    rw [hmax, hz, hc0] at i5
    rw [hmax, hz, hc0, hpc0] at i6
    simp only [Nat.zero_add, List.length_nil, List.map_nil, List.nil_append] at i4 i5 i6
    have hmod : gs.length % t = r := by
      rw [hlen, Nat.mul_comm k t, Nat.mul_add_mod, Nat.mod_eq_of_lt hrt]
    have hdiv : gs.length / t = k := by
      rw [hlen, Nat.mul_comm k t, Nat.mul_add_div h0t, Nat.div_eq_of_lt hrt, Nat.add_zero]
    set S := (runAddGames ((Serializer.new ⟨[], []⟩).set_max_games_per_block t) gs).2
      with hS
    have hfin := finish_plan_nil S i2
    have hglen : S.games_list.length = r := by rw [i4, hmod]
    have hclen : S.sink.chunks.length = 2 * k := by rw [i5, hdiv]
    have hcounts : (payloadChunks S.sink.chunks).map gamesInPayload
        = List.replicate k t := by
      rw [i6, hdiv]
    have heven : S.sink.chunks.length % 2 = 0 := by rw [hclen]; omega
    have hpayload : gamesInPayload (blockPayload S.builder.data S.games_list) = r := by
      rw [gamesInPayload_blockPayload _ _ (by rw [hglen]; omega), hglen]
    refine ⟨?_, ?_, ?_, ?_⟩
    · exact i1
    · show (Serializer.finish_current_block S).1 = true
      rw [hfin]
    · show (Serializer.finish_current_block S).2.sink.chunks.length = 2 * (k + 1)
      rw [hfin]
      simp only [List.length_append, List.length_cons, List.length_nil]
      omega
    · show (payloadChunks (Serializer.finish_current_block S).2.sink.chunks).map
          gamesInPayload = List.replicate k t ++ [r]
      rw [hfin]
      simp only
      rw [payloadChunks_append_pair _ _ _ heven]
      simp only [List.map_append, List.map_cons, List.map_nil, hpayload, hcounts]

/-- A game with no moves and unknown result, used in concrete runs. -/
def g0 : GameValue := { result := GameResult.Unknown, start_position := none, moves := [] }

def gs3 : List GameValue := [g0, g0, g0]

theorem add_game_threshold_chunking_witness :
    0 < 1 ∧ 1 < 2 ∧ 2 < 2 ^ 32 ∧ gs3.length = 1 * 2 + 1 ∧
    ((runThenFlush 2 gs3).1 = true ∧
     (runThenFlush 2 gs3).2.1 = true ∧
     (runThenFlush 2 gs3).2.2.sink.chunks.length = 2 * (1 + 1) ∧
     (payloadChunks (runThenFlush 2 gs3).2.2.sink.chunks).map gamesInPayload
       = List.replicate 1 2 ++ [1]) :=
  ⟨by decide, by decide, by decide, by decide,
   add_game_threshold_chunking.2.2 2 1 1 gs3 (by decide) (by decide) (by decide)
     (by decide)⟩

/-- Claim C9: when a call to `add_game` reaches the threshold and triggers the
automatic block finalization, the offset it returns was a valid position of
the pre-flush arena, but the arena the call leaves behind is cleared — the
returned reference points past the end of the new (empty) arena and is stale
for any use in the next block. -/
theorem add_game_returned_offset_stale (s : Serializer) (g : GameValue)
    (h : s.games_list.length + 1 ≥ s.max_games_per_block)
    (hp : s.sink.plan = []) :
    (Serializer.add_game s g).1 = true ∧
    (Serializer.add_game s g).2.1 < (s.builder.data ++ encodeGame g).length ∧
    (Serializer.add_game s g).2.2.builder.data = [] ∧
    ¬ (Serializer.add_game s g).2.1
        < (Serializer.add_game s g).2.2.builder.data.length := by
  rw [add_game_flush s g h]
  rw [finish_plan_nil _ (show (({ s with
        builder := ⟨s.builder.data ++ encodeGame g⟩,
        games_list := s.games_list ++ [s.builder.data.length] } : Serializer)).sink.plan
      = [] from hp)]
  refine ⟨rfl, ?_, rfl, ?_⟩
  · simp only [List.length_append]
    have := encodeGame_length_pos g
    omega
  · simp

/-- A serializer one game away from its (tiny) block threshold. -/
def thresholdSer : Serializer :=
  { sink := { chunks := [], plan := [] }, builder := ⟨[]⟩, move_map := [],
    games_list := [], max_games_per_block := 1 }

theorem add_game_returned_offset_stale_witness :
    thresholdSer.games_list.length + 1 ≥ thresholdSer.max_games_per_block ∧
    thresholdSer.sink.plan = [] ∧
    ((Serializer.add_game thresholdSer g0).1 = true ∧
     (Serializer.add_game thresholdSer g0).2.1
       < (thresholdSer.builder.data ++ encodeGame g0).length ∧
     (Serializer.add_game thresholdSer g0).2.2.builder.data = [] ∧
     ¬ (Serializer.add_game thresholdSer g0).2.1
         < (Serializer.add_game thresholdSer g0).2.2.builder.data.length) :=
  ⟨by decide, rfl, add_game_returned_offset_stale thresholdSer g0 (by decide) rfl⟩

/-- Upstream `shakmaty::san::San` (external parser event): normal move,
castle, drop-in (`Put`) or null move. -/
inductive San
  | Normal (role : Role) (file : Option SFile) (rank : Option SRank)
      (capture : Bool) («to» : SSquare) (promotion : Option Role)
  | Castle (side : CastlingSide)
  | Put (role : Role) («to» : SSquare)
  | Null
deriving DecidableEq, Repr

/-- `ConverterVisitor::san`, translation part: a normal move maps
field-by-field; a castle keeps the king and the side with every other field
zero/default (the source's `..Default::default()`, the defaults modelled from
the spec: "all other fields except moved_piece = King are irrelevant and must
be zero/default"); any other kind panics (`none`): "Unsupported move type." -/
def sanToMove : San → Option Move
  | San.Normal role file rank capture sq promotion =>
      some { moved_piece := role_to_piece role,
             «to» := shakmaty_square_to_square sq,
             is_capture := capture,
             promoted_piece := promotion.map role_to_piece,
             castle := none,
             from_file := file.map shakmaty_file_to_file,
             from_rank := rank.map shakmaty_rank_to_rank }
  | San.Castle side =>
      some { moved_piece := Piece.King,
             «to» := 0,
             is_capture := false,
             promoted_piece := none,
             castle := some (match side with
               | CastlingSide.KingSide => CastleKind.Kingside
               | CastlingSide.QueenSide => CastleKind.Queenside),
             from_file := none,
             from_rank := none }
  | San.Put _ _ => none
  | San.Null => none

/-- One parsed PGN game as the push parser presents it to the visitor: the
move events in order, then the outcome event when present. -/
structure PgnGame where
  sans : List San
  outcome : Option Outcome
deriving DecidableEq, Repr

/-- `Converter<W, R>` (src/converter.rs): the visitor state (serializer plus
the current game's move-reference list), the remaining parsed input standing
for the `pgn_reader::Reader`, and the processed-game counter. -/
structure Converter where
  serializer : Serializer
  current_moves : List Nat
  input : List PgnGame
  game_count : Nat
deriving DecidableEq, Repr

/-- `ConverterVisitor::san`: translate the event into a `Move`, submit it
through `add_move` and push the returned reference; unsupported kinds panic. -/
def visitorSan (sp : San) (c : Converter) : Option Converter :=
  match sanToMove sp with
  | none => none
  | some mv =>
      let r := Serializer.add_move c.serializer mv
      some { c with serializer := r.2, current_moves := c.current_moves ++ [r.1] }

/-- `ConverterVisitor::outcome`: build the game (null start position) from the
accumulated move references, `add_game` it (the source's `.unwrap()` panics on
error), and clear the per-game move list. -/
def visitorOutcome (o : Outcome) (c : Converter) : Option Converter :=
  let g : GameValue := { result := outcome_to_game_result o,
                         start_position := none, moves := c.current_moves }
  let r := Serializer.add_game c.serializer g
  if r.1 then some { c with serializer := r.2.2, current_moves := [] } else none

def processSans : List San → Converter → Option Converter
  | [], c => some c
  | sp :: rest, c =>
      match visitorSan sp c with
      | some c1 => processSans rest c1
      | none => none

/-- Driving the visitor over one parsed game: every move event in order, then
the outcome event when the game has one. -/
def processGame (g : PgnGame) (c : Converter) : Option Converter :=
  match processSans g.sans c with
  | none => none
  | some c1 =>
      match g.outcome with
      | some o => visitorOutcome o c1
      | none => some c1

/-- `Converter::new`. -/
def Converter.new (input : List PgnGame) (serializer : Serializer) : Converter :=
  { serializer := serializer, current_moves := [], input := input, game_count := 0 }

/-- `Converter::next_game`: `read_game` consumes the next game when one
remains and reports whether one was read; `self.game_count += 1` then runs
unconditionally on every non-panicking call. -/
def Converter.next_game (c : Converter) : Option (Bool × Converter) :=
  match c.input with
  | [] => some (false, { c with game_count := c.game_count + 1 })
  | g :: rest =>
      match processGame g { c with input := rest } with
      | some c1 => some (true, { c1 with game_count := c1.game_count + 1 })
      | none => none

/-- `Converter::flush`: delegates to the serializer's `finish_current_block`. -/
def Converter.flush (c : Converter) : Bool × Converter :=
  let r := Serializer.finish_current_block c.serializer
  (r.1, { c with serializer := r.2 })

/-- `impl Drop for Converter`: `self.flush().unwrap()` — flush, panicking
(`none`) exactly when the flush's write fails. -/
def Converter.drop (c : Converter) : Option Converter :=
  match Converter.flush c with
  | (true, c1) => some c1
  | (false, _) => none

/-- The operations a client can invoke on a live `Converter`. -/
inductive ConvOp
  | nextGameOp
  | flushOp
deriving DecidableEq, Repr

/-- One client step; a panic inside a step, or an error the client bubbles up
with `?`, ends the live part of the lifetime early. -/
def Converter.step : ConvOp → Converter → Option Converter
  | ConvOp.nextGameOp, c => (Converter.next_game c).map (fun p => p.2)
  | ConvOp.flushOp, c =>
      let r := Converter.flush c
      if r.1 then some r.2 else none

/-- A whole lifetime of a `Converter`: the client's steps run until they end
— normally (all steps done) or early (a step fails) — and then `drop` runs on
the state reached, as Rust runs `Drop` on every exit path from the owning
scope. -/
def Converter.lifetime : List ConvOp → Converter → Option Converter
  | [], c => Converter.drop c
  | op :: ops, c =>
      match Converter.step op c with
      | some c1 => Converter.lifetime ops c1
      | none => Converter.drop c

/-- Claim C3: every lifetime of a Converter — normal completion or early
termination — ends in a `drop`, `drop` invokes `flush`, and `flush` delegates
to the serializer's `finish_current_block`; a fully-formed but unflushed
block is therefore never lost to scope exit. -/
theorem drop_always_flushes (ops : List ConvOp) (c : Converter) :
    (∃ c1, Converter.lifetime ops c = Converter.drop c1) ∧
    (∀ d : Converter, Converter.drop d
        = (if (Converter.flush d).1 then some (Converter.flush d).2 else none)) ∧
    (∀ d : Converter, Converter.flush d
        = ((Serializer.finish_current_block d.serializer).1,
           { d with serializer := (Serializer.finish_current_block d.serializer).2 })) := by
  refine ⟨?_, ?_, ?_⟩
  · induction ops generalizing c with
    | nil => exact ⟨c, rfl⟩
    | cons op rest ih =>
        cases hstep : Converter.step op c with
        | some c1 =>
            obtain ⟨c2, hc2⟩ := ih c1
            refine ⟨c2, ?_⟩
            simp only [Converter.lifetime, hstep]
            exact hc2
        | none =>
            refine ⟨c, ?_⟩
            simp only [Converter.lifetime, hstep]
  · intro d
    rcases hf : Converter.flush d with ⟨ok, d1⟩
    cases ok
    · simp [Converter.drop, hf]
    · simp [Converter.drop, hf]
  · intro d
    rfl

/-- Whether a parsed move kind has a schema representation. -/
def San.isEncodable : San → Bool
  | San.Normal .. => true
  | San.Castle _ => true
  | _ => false

/-- Claim C6: the san handler translates exactly the normal moves and the
castles into a `Move` submitted via `add_move` (pushing the returned
reference onto the current game's move list); any other parsed move kind is a
hard encoding error — a panic aborting the whole conversion. -/
theorem san_supported_kinds (sp : San) (c : Converter) :
    (sp.isEncodable = false → visitorSan sp c = none) ∧
    (sp.isEncodable = true → ∃ mv, sanToMove sp = some mv ∧
        visitorSan sp c
          = some { c with
              serializer := (Serializer.add_move c.serializer mv).2,
              current_moves := c.current_moves
                ++ [(Serializer.add_move c.serializer mv).1] }) := by
  cases sp with
  | Normal role file rank capture sq promotion =>
      refine ⟨?_, fun _ => ⟨_, rfl, rfl⟩⟩
      intro h
      simp [San.isEncodable] at h
  | Castle side =>
      refine ⟨?_, fun _ => ⟨_, rfl, rfl⟩⟩
      intro h
      simp [San.isEncodable] at h
  | Put role sq =>
      refine ⟨fun _ => rfl, ?_⟩
      intro h
      simp [San.isEncodable] at h
  | Null =>
      refine ⟨fun _ => rfl, ?_⟩
      intro h
      simp [San.isEncodable] at h

/-- A converter over an exhausted input with a fresh serializer. -/
def conv0 : Converter := Converter.new [] (Serializer.new ⟨[], []⟩)

theorem san_supported_kinds_witness :
    San.isEncodable San.Null = false ∧ visitorSan San.Null conv0 = none :=
  ⟨rfl, (san_supported_kinds San.Null conv0).1 rfl⟩

/-- Claim C8 fails on the code: `next_game` bumps `game_count` even when the
input is exhausted and no game is read — on a fresh converter with no games
the call returns `false` ("no more games") yet the counter becomes 1,
contradicting the documented meaning of `game_count` (games converted). -/
theorem next_game_count_bug :
    (Converter.next_game conv0).map (fun p => (p.1, p.2.game_count))
      = some (false, 1) := rfl

/-- Claim C10: dropping a `Converter` unconditionally invokes `flush`
(panicking exactly when that flush's write fails); dropping one whose current
block is empty — freshly created, just explicitly flushed, or having
processed zero games — writes one additional valid, empty length-prefixed
block containing zero games. -/
theorem drop_writes_empty_block (c : Converter)
    (hp : c.serializer.sink.plan = [])
    (hg : c.serializer.games_list = [])
    (hb : c.serializer.builder.data = []) :
    (∀ d : Converter, Converter.drop d = none ↔ (Converter.flush d).1 = false) ∧
    ∃ c1, Converter.drop c = some c1 ∧
      c1.serializer.sink.chunks
        = c.serializer.sink.chunks
          ++ [toLE4 (blockPayload [] []).length, blockPayload [] []] ∧
      gamesInPayload (blockPayload [] []) = 0 := by
  constructor
  · intro d
    rcases hf : Converter.flush d with ⟨ok, d1⟩
    cases ok
    · simp [Converter.drop, hf]
    · simp [Converter.drop, hf]
  · have hfin := finish_plan_nil c.serializer hp
    rw [hg, hb] at hfin
    refine ⟨{ c with serializer :=
        { sink := ⟨c.serializer.sink.chunks
            ++ [toLE4 (blockPayload [] []).length, blockPayload [] []], []⟩,
          builder := ⟨[]⟩, move_map := [], games_list := [],
          max_games_per_block := c.serializer.max_games_per_block } }, ?_, rfl, rfl⟩
    simp [Converter.drop, Converter.flush, hfin]

theorem drop_writes_empty_block_witness :
    conv0.serializer.sink.plan = [] ∧ conv0.serializer.games_list = [] ∧
    conv0.serializer.builder.data = [] ∧
    ((∀ d : Converter, Converter.drop d = none ↔ (Converter.flush d).1 = false) ∧
     ∃ c1, Converter.drop conv0 = some c1 ∧
       c1.serializer.sink.chunks
         = conv0.serializer.sink.chunks
           ++ [toLE4 (blockPayload [] []).length, blockPayload [] []] ∧
       gamesInPayload (blockPayload [] []) = 0) :=
  ⟨rfl, rfl, rfl, drop_writes_empty_block conv0 rfl rfl rfl⟩
